import Mathlib

/-!
Verification of the kit-enigo input-synthesis engine (src/src/lib.rs).

Shallow embedding of the `EnigoJs` NAPI wrapper around the `enigo` input
backend. The engine's public operations (`press_key`, `release_key`,
`press_then_release_key`, `set_button_click`, `set_button_toggle`,
`set_mouse_scroll`, `type_text`, `new`) are embedded as pure functions over
an explicit engine state recording the sequence of backend calls issued and
the set of held keys. The `enigo` backend itself is external to the
repository; where its behavior decides a claim it is modelled from the spec
and marked as such.
-/

namespace KitEnigo

/-- Portable keyboard-key vocabulary of the binding (`enum KeyboardKey` in
src/src/lib.rs, discriminants 0..54). -/
inductive KeyboardKey
  | Num0 | Num1 | Num2 | Num3 | Num4 | Num5 | Num6 | Num7 | Num8 | Num9
  | A | B | C | D | E | F | G | H | I | J | K | L | M | N | O | P | Q | R
  | S | T | U | V | W | X | Y | Z
  | Add | Subtract | Multiply | Divide | OEM2
  | Tab | CapsLock | Shift | Control | Alt | Space | Backspace | Return
  | Escape | UpArrow | DownArrow | LeftArrow | RightArrow | Meta
  deriving DecidableEq, Repr, Fintype

/-- The platform key type of the `enigo` crate (`Key`), restricted to the
constructors the binding's catalog actually produces: `Key::Unicode(c)` plus
the named keys appearing in `transform_key`. -/
inductive Key
  | Unicode (c : Char)
  | Tab | CapsLock | Meta | Shift | Control | Alt | Space | Backspace
  | Return | Escape | UpArrow | DownArrow | LeftArrow | RightArrow | End
  deriving DecidableEq, Repr

/-- Rust `enum MouseButton` in src/src/lib.rs (Left = 0, Middle = 1, Right = 2). -/
inductive MouseButton
  | Left | Middle | Right
  deriving DecidableEq, Repr

/-- The `enigo::Button` values the binding produces. -/
inductive Button
  | Left | Middle | Right
  deriving DecidableEq, Repr

/-- Rust `enum ScrollDirection` in src/src/lib.rs (Down = 0, Up = 1). -/
inductive ScrollDirection
  | Down | Up
  deriving DecidableEq, Repr

/-- The `enigo::Direction` values used by the binding: `Press`, `Release`,
`Click`. -/
inductive Direction
  | Press | Release | Click
  deriving DecidableEq, Repr

/-- The `enigo::Axis` type; the binding only ever uses `Vertical`. -/
inductive Axis
  | Horizontal | Vertical
  deriving DecidableEq, Repr

/-- Coordinate mode of `enigo::Coordinate`; the binding uses `Abs`. -/
inductive Coordinate
  | Abs | Rel
  deriving DecidableEq, Repr

/-- Rust `struct ToggleKey` in src/src/lib.rs: a keyboard key paired with a
boolean `down` flag. -/
structure ToggleKey where
  value : KeyboardKey
  down : Bool
  deriving DecidableEq, Repr

/-- Rust `fn transform_key(key: KeyboardKey) -> Key` in src/src/lib.rs, the key
catalog: translated clause by clause from the Rust `match`. -/
def transform_key (key : KeyboardKey) : Key :=
  match key with
  | KeyboardKey.Num0 => Key.Unicode '0'
  | KeyboardKey.Num1 => Key.Unicode '1'
  | KeyboardKey.Num2 => Key.Unicode '2'
  | KeyboardKey.Num3 => Key.Unicode '3'
  | KeyboardKey.Num4 => Key.Unicode '4'
  | KeyboardKey.Num5 => Key.Unicode '5'
  | KeyboardKey.Num6 => Key.Unicode '6'
  | KeyboardKey.Num7 => Key.Unicode '7'
  | KeyboardKey.Num8 => Key.Unicode '8'
  | KeyboardKey.Num9 => Key.Unicode '9'
  | KeyboardKey.A => Key.Unicode 'a'
  | KeyboardKey.B => Key.Unicode 'b'
  | KeyboardKey.C => Key.Unicode 'c'
  | KeyboardKey.D => Key.Unicode 'd'
  | KeyboardKey.E => Key.Unicode 'e'
  | KeyboardKey.F => Key.Unicode 'f'
  | KeyboardKey.G => Key.Unicode 'g'
  | KeyboardKey.H => Key.Unicode 'h'
  | KeyboardKey.I => Key.Unicode 'i'
  | KeyboardKey.J => Key.Unicode 'j'
  | KeyboardKey.K => Key.Unicode 'k'
  | KeyboardKey.L => Key.Unicode 'l'
  | KeyboardKey.M => Key.Unicode 'm'
  | KeyboardKey.N => Key.Unicode 'n'
  | KeyboardKey.O => Key.Unicode 'o'
  | KeyboardKey.P => Key.Unicode 'p'
  | KeyboardKey.Q => Key.Unicode 'q'
  | KeyboardKey.R => Key.Unicode 'r'
  | KeyboardKey.S => Key.Unicode 's'
  | KeyboardKey.T => Key.Unicode 't'
  | KeyboardKey.U => Key.Unicode 'u'
  | KeyboardKey.V => Key.Unicode 'v'
  | KeyboardKey.W => Key.Unicode 'w'
  | KeyboardKey.X => Key.Unicode 'x'
  | KeyboardKey.Y => Key.Unicode 'y'
  | KeyboardKey.Z => Key.Unicode 'z'
  | KeyboardKey.Add => Key.Unicode '+'
  | KeyboardKey.Subtract => Key.Unicode '-'
  | KeyboardKey.Multiply => Key.Unicode '*'
  | KeyboardKey.Divide => Key.Unicode '/'
  | KeyboardKey.Tab => Key.Tab
  | KeyboardKey.CapsLock => Key.CapsLock
  | KeyboardKey.Meta => Key.Meta
  | KeyboardKey.Shift => Key.Shift
  | KeyboardKey.Control => Key.Control
  | KeyboardKey.Alt => Key.Alt
  | KeyboardKey.Space => Key.Space
  | KeyboardKey.Backspace => Key.Backspace
  | KeyboardKey.Return => Key.Return
  | KeyboardKey.Escape => Key.Escape
  | KeyboardKey.UpArrow => Key.UpArrow
  | KeyboardKey.DownArrow => Key.DownArrow
  | KeyboardKey.LeftArrow => Key.LeftArrow
  | KeyboardKey.RightArrow => Key.RightArrow
  | KeyboardKey.OEM2 => Key.End

/-- The `match button` in `set_button_click` / `set_button_toggle`: the
MouseButton → enigo Button translation. -/
def transform_button (button : MouseButton) : Button :=
  match button with
  | MouseButton.Left => Button.Left
  | MouseButton.Middle => Button.Middle
  | MouseButton.Right => Button.Right

/-- One call issued by the engine to the `enigo` backend, mirroring the
methods of the `Keyboard` / `Mouse` traits the binding invokes:
`key(key, direction)`, `button(button, direction)`, `scroll(length, axis)`,
`text(content)`, `move_mouse(x, y, coordinate)`. -/
inductive BackendCall
  | key (k : Key) (d : Direction)
  | button (b : Button) (d : Direction)
  | scroll (length : Int) (axis : Axis)
  | text (content : String)
  | moveMouse (x y : Int) (coord : Coordinate)
  deriving DecidableEq, Repr

/-- A raw OS-level input event produced by the backend. -/
inductive LowEvent
  | keyDown (k : Key)
  | keyUp (k : Key)
  | buttonDown (b : Button)
  | buttonUp (b : Button)
  | scrollBy (length : Int) (axis : Axis)
  | textInput (content : String)
  | moveTo (x y : Int) (coord : Coordinate)
  deriving DecidableEq, Repr

/-- Modelled from the spec: the OS-level events one successful backend call
produces. In particular a button `Click` is "backend Press immediately
followed by Release" of the same button (§4.2 clickButton), and each other
call is the single corresponding raw event. -/
def lowLevel (c : BackendCall) : List LowEvent :=
  match c with
  | BackendCall.key k Direction.Press => [LowEvent.keyDown k]
  | BackendCall.key k Direction.Release => [LowEvent.keyUp k]
  | BackendCall.key k Direction.Click => [LowEvent.keyDown k, LowEvent.keyUp k]
  | BackendCall.button b Direction.Press => [LowEvent.buttonDown b]
  | BackendCall.button b Direction.Release => [LowEvent.buttonUp b]
  | BackendCall.button b Direction.Click =>
      [LowEvent.buttonDown b, LowEvent.buttonUp b]
  | BackendCall.scroll n a => [LowEvent.scrollBy n a]
  | BackendCall.text s => [LowEvent.textInput s]
  | BackendCall.moveMouse x y c => [LowEvent.moveTo x y c]

/-- The behavior of the external backend for one call: `none` means the call
succeeds, `some e` means it fails and `e` is the cause string the engine
propagates via `napi::Error::from_reason(e.to_string())`. -/
def Behavior : Type := BackendCall → Option String

/-- Engine-observable state: the ordered trace of backend calls issued so
far, and the held-key set. Modelled from the spec: `enigo.held()` tracking
(HeldKeySet, §3) records a key as held after a successful key Press without
a matching Release; a set (no duplicates), deterministic order; button,
scroll, text and pointer calls never enter it. -/
structure EngineState where
  trace : List BackendCall
  held : List Key
  deriving DecidableEq, Repr

/-- The engine's initial state: no calls issued, no keys held. -/
def initialState : EngineState := { trace := [], held := [] }

/-- Insert a key into the held set if absent (set semantics, stable order). -/
def heldInsert (l : List Key) (k : Key) : List Key :=
  if k ∈ l then l else l ++ [k]

/-- Modelled from the spec: how a successful backend call updates the
held-key set — a key Press inserts the key, a key Release removes it, a key
Click leaves no net change, all non-key calls leave it unchanged. -/
def heldUpdate (l : List Key) (c : BackendCall) : List Key :=
  match c with
  | BackendCall.key k Direction.Press => heldInsert l k
  | BackendCall.key k Direction.Release => l.erase k
  | _ => l

/-- Issue one backend call: always appended to the trace (the call is made
either way); on success the held set is updated, on failure the engine
returns the backend's cause string (the `map_err` of every binding method)
and the held set is unchanged. -/
def callBackend (beh : Behavior) (s : EngineState) (c : BackendCall) :
    Except String Unit × EngineState :=
  match beh c with
  | none =>
      (Except.ok (), { trace := s.trace ++ [c], held := heldUpdate s.held c })
  | some e => (Except.error e, { trace := s.trace ++ [c], held := s.held })

/-- Rust `pub fn set_button_click(&mut self, button: MouseButton)`: translates
the button and issues one `enigo.button(button, Click)` call. -/
def set_button_click (beh : Behavior) (button : MouseButton)
    (s : EngineState) : Except String Unit × EngineState :=
  callBackend beh s (BackendCall.button (transform_button button) Direction.Click)

/-- Rust `pub fn set_button_toggle(&mut self, button: MouseButton, down: bool)`:
issues one `enigo.button` call with `Press` if `down` else `Release`. -/
def set_button_toggle (beh : Behavior) (button : MouseButton) (down : Bool)
    (s : EngineState) : Except String Unit × EngineState :=
  let direction := if down then Direction.Press else Direction.Release
  callBackend beh s (BackendCall.button (transform_button button) direction)

/-- Normalize an integer to the signed 32-bit range, as two's-complement
wraparound modulo 2^32 does. -/
def toI32 (x : Int) : Int := (x + 2 ^ 31) % 2 ^ 32 - 2 ^ 31

/-- Rust `i32` negation under wraparound semantics: `-x` reduced modulo
2^32 into the signed range. -/
def wrapNeg32 (x : Int) : Int := toI32 (-x)

/-- Rust `pub fn set_mouse_scroll(&mut self, direction: ScrollDirection, clicks:
i32)`: `length` is `clicks` for `Down` and `-clicks` for `Up` (i32 negation,
wrapping modulo 2^32), then one `enigo.scroll(length, Axis::Vertical)`
call. -/
def set_mouse_scroll (beh : Behavior) (direction : ScrollDirection)
    (clicks : Int) (s : EngineState) : Except String Unit × EngineState :=
  let length :=
    match direction with
    | ScrollDirection.Down => clicks
    | ScrollDirection.Up => wrapNeg32 clicks
  callBackend beh s (BackendCall.scroll length Axis.Vertical)

/-- Rust `pub fn type_text(&mut self, content: String)`: one
`enigo.text(content.as_str())` call forwarding the string unchanged. -/
def type_text (beh : Behavior) (content : String) (s : EngineState) :
    Except String Unit × EngineState :=
  callBackend beh s (BackendCall.text content)

/-- Rust `pub fn set_mouse_position(&mut self, x: i32, y: i32)`: one
`enigo.move_mouse(x, y, Coordinate::Abs)` call. -/
def set_mouse_position (beh : Behavior) (x y : Int) (s : EngineState) :
    Except String Unit × EngineState :=
  callBackend beh s (BackendCall.moveMouse x y Coordinate.Abs)

/-- Rust `pub fn press_key(&mut self, keys: Vec<KeyboardKey>)`: for each key in
list order, `enigo.key(transform_key(key), Press)`, stopping at the first
error (the `?` operator) and returning it. -/
def press_key (beh : Behavior) (keys : List KeyboardKey) (s : EngineState) :
    Except String Unit × EngineState :=
  match keys with
  | [] => (Except.ok (), s)
  | k :: rest =>
      match callBackend beh s (BackendCall.key (transform_key k) Direction.Press) with
      | (Except.ok _, s') => press_key beh rest s'
      | (Except.error e, s') => (Except.error e, s')

/-- Rust `pub fn release_key(&mut self, keys: Vec<KeyboardKey>)`: symmetric to
`press_key` with direction `Release`. -/
def release_key (beh : Behavior) (keys : List KeyboardKey) (s : EngineState) :
    Except String Unit × EngineState :=
  match keys with
  | [] => (Except.ok (), s)
  | k :: rest =>
      match callBackend beh s (BackendCall.key (transform_key k) Direction.Release) with
      | (Except.ok _, s') => release_key beh rest s'
      | (Except.error e, s') => (Except.error e, s')

/-- The first loop of `press_then_release_key`: Press for every entry's
`value` in order, stopping at the first error. -/
def pressPass (beh : Behavior) (keys : List ToggleKey) (s : EngineState) :
    Except String Unit × EngineState :=
  match keys with
  | [] => (Except.ok (), s)
  | k :: rest =>
      match callBackend beh s
          (BackendCall.key (transform_key k.value) Direction.Press) with
      | (Except.ok _, s') => pressPass beh rest s'
      | (Except.error e, s') => (Except.error e, s')

/-- The second loop of `press_then_release_key`: Release for every entry's
`value` in order, stopping at the first error. -/
def releasePass (beh : Behavior) (keys : List ToggleKey) (s : EngineState) :
    Except String Unit × EngineState :=
  match keys with
  | [] => (Except.ok (), s)
  | k :: rest =>
      match callBackend beh s
          (BackendCall.key (transform_key k.value) Direction.Release) with
      | (Except.ok _, s') => releasePass beh rest s'
      | (Except.error e, s') => (Except.error e, s')

/-- Rust `pub fn press_then_release_key(&mut self, keys: Vec<ToggleKey>)`: the
whole press loop first, then (only if no press failed, by the `?` operator)
the whole release loop. The `down` field of `ToggleKey` is never read. -/
def press_then_release_key (beh : Behavior) (keys : List ToggleKey)
    (s : EngineState) : Except String Unit × EngineState :=
  match pressPass beh keys s with
  | (Except.ok _, s') => releasePass beh keys s'
  | (Except.error e, s') => (Except.error e, s')

/-- What constructing `EnigoJs` can produce: an engine, or a Rust panic
(the `.unwrap()` aborting with the error's message). -/
inductive ConstructResult
  | engine (s : EngineState)
  | panic (msg : String)
  deriving DecidableEq, Repr

/-- Rust `pub fn new() -> Self`: `Enigo::new(&Settings::default()).unwrap()`.
`backendInit` models the external `Enigo::new` outcome (Modelled from the
spec: it fails exactly when the backend cannot acquire OS input-injection
privileges, with a cause message). On `Ok` the engine starts fresh; on
`Err(e)` the `.unwrap()` panics with `e`, which is not a reportable error
value returned to the caller. -/
def new (backendInit : Except String Unit) : ConstructResult :=
  match backendInit with
  | Except.ok _ => ConstructResult.engine initialState
  | Except.error e => ConstructResult.panic e

/-- Rust `pub fn held(&mut self)`: returns the backend's held-key snapshot (the
binding converts it to platform key codes; modelled at `Key` granularity). -/
def held (s : EngineState) : List Key := s.held

/-- The backend call a key press of `k` issues. -/
def pressCall (k : KeyboardKey) : BackendCall :=
  BackendCall.key (transform_key k) Direction.Press

/-- The backend call a key release of `k` issues. -/
def releaseCall (k : KeyboardKey) : BackendCall :=
  BackendCall.key (transform_key k) Direction.Release

/-- A backend on which every call succeeds. -/
def behOk : Behavior := fun _ => none

/-- A backend that fails exactly the key press of `KeyboardKey.B`, with
cause string "boom", and accepts everything else. -/
def behFailB : Behavior := fun c =>
  if c = pressCall KeyboardKey.B then some "boom" else none

/-- The complete enumeration of the closed `KeyboardKey` vocabulary, in
declaration order. -/
def allKeyboardKeys : List KeyboardKey :=
  [KeyboardKey.Num0, KeyboardKey.Num1, KeyboardKey.Num2, KeyboardKey.Num3,
   KeyboardKey.Num4, KeyboardKey.Num5, KeyboardKey.Num6, KeyboardKey.Num7,
   KeyboardKey.Num8, KeyboardKey.Num9, KeyboardKey.A, KeyboardKey.B,
   KeyboardKey.C, KeyboardKey.D, KeyboardKey.E, KeyboardKey.F, KeyboardKey.G,
   KeyboardKey.H, KeyboardKey.I, KeyboardKey.J, KeyboardKey.K, KeyboardKey.L,
   KeyboardKey.M, KeyboardKey.N, KeyboardKey.O, KeyboardKey.P, KeyboardKey.Q,
   KeyboardKey.R, KeyboardKey.S, KeyboardKey.T, KeyboardKey.U, KeyboardKey.V,
   KeyboardKey.W, KeyboardKey.X, KeyboardKey.Y, KeyboardKey.Z,
   KeyboardKey.Add, KeyboardKey.Subtract, KeyboardKey.Multiply,
   KeyboardKey.Divide, KeyboardKey.OEM2, KeyboardKey.Tab,
   KeyboardKey.CapsLock, KeyboardKey.Shift, KeyboardKey.Control,
   KeyboardKey.Alt, KeyboardKey.Space, KeyboardKey.Backspace,
   KeyboardKey.Return, KeyboardKey.Escape, KeyboardKey.UpArrow,
   KeyboardKey.DownArrow, KeyboardKey.LeftArrow, KeyboardKey.RightArrow,
   KeyboardKey.Meta]

/-- Decoding through the inverse of the catalog mapping: the first logical
key whose platform code is `pk`, if any. -/
def decode (pk : Key) : Option KeyboardKey :=
  allKeyboardKeys.find? (fun k => transform_key k == pk)

/-- Whether a construction outcome is a panic. -/
def isPanic (r : ConstructResult) : Bool :=
  match r with
  | ConstructResult.panic _ => true
  | ConstructResult.engine _ => false

lemma callBackend_ok (beh : Behavior) (s : EngineState) (c : BackendCall)
    (h : beh c = none) :
    callBackend beh s c =
      (Except.ok (), { trace := s.trace ++ [c], held := heldUpdate s.held c }) := by
  simp [callBackend, h]

lemma callBackend_err (beh : Behavior) (s : EngineState) (c : BackendCall)
    (e : String) (h : beh c = some e) :
    callBackend beh s c =
      (Except.error e, { trace := s.trace ++ [c], held := s.held }) := by
  simp [callBackend, h]

lemma callBackend_trace (beh : Behavior) (s : EngineState) (c : BackendCall) :
    (callBackend beh s c).2.trace = s.trace ++ [c] := by
  unfold callBackend
  cases beh c <;> rfl

lemma heldUpdate_key_press (l : List Key) (k : Key) :
    heldUpdate l (BackendCall.key k Direction.Press) = heldInsert l k := rfl

lemma heldUpdate_button (l : List Key) (b : Button) (d : Direction) :
    heldUpdate l (BackendCall.button b d) = l := by
  cases d <;> rfl

lemma heldUpdate_text (l : List Key) (c : String) :
    heldUpdate l (BackendCall.text c) = l := rfl

lemma mem_heldInsert {x k : Key} {l : List Key} :
    x ∈ heldInsert l k ↔ x ∈ l ∨ x = k := by
  unfold heldInsert
  by_cases hk : k ∈ l
  · rw [if_pos hk]
    constructor
    · exact Or.inl
    · rintro (h | rfl)
      · exact h
      · exact hk
  · rw [if_neg hk]
    simp

lemma mem_foldl_heldInsert (l : List Key) :
    ∀ (acc : List Key) (x : Key), x ∈ acc ∨ x ∈ l →
      x ∈ l.foldl heldInsert acc := by
  induction l with
  | nil =>
      intro acc x h
      simpa using h
  | cons k l' ih =>
      intro acc x h
      rw [List.foldl_cons]
      apply ih
      rcases h with h | h
      · exact Or.inl (mem_heldInsert.mpr (Or.inl h))
      · rcases List.mem_cons.mp h with rfl | h'
        · exact Or.inl (mem_heldInsert.mpr (Or.inr rfl))
        · exact Or.inr h'

lemma pressPass_all_ok (beh : Behavior)
    (hbeh : ∀ k d, beh (BackendCall.key k d) = none) :
    ∀ (keys : List ToggleKey) (s : EngineState),
      pressPass beh keys s =
        (Except.ok (),
         { trace := s.trace ++ keys.map (fun t => pressCall t.value),
           held := keys.foldl (fun l t => heldInsert l (transform_key t.value)) s.held }) := by
  intro keys
  induction keys with
  | nil => intro s; simp [pressPass]
  | cons t rest ih =>
      intro s
      simp only [pressPass]
      rw [callBackend_ok beh s _ (hbeh _ _)]
      simp only [ih]
      simp [pressCall, heldUpdate_key_press, List.append_assoc]

lemma releasePass_all_ok (beh : Behavior)
    (hbeh : ∀ k d, beh (BackendCall.key k d) = none) :
    ∀ (keys : List ToggleKey) (s : EngineState),
      releasePass beh keys s =
        (Except.ok (),
         { trace := s.trace ++ keys.map (fun t => releaseCall t.value),
           held := keys.foldl (fun l t => l.erase (transform_key t.value)) s.held }) := by
  intro keys
  induction keys with
  | nil => intro s; simp [releasePass]
  | cons t rest ih =>
      intro s
      simp only [releasePass]
      rw [callBackend_ok beh s _ (hbeh _ _)]
      simp only [ih]
      simp [releaseCall, heldUpdate, List.append_assoc]

lemma pressPass_congr (beh : Behavior) :
    ∀ (keys1 keys2 : List ToggleKey) (s : EngineState),
      keys1.map ToggleKey.value = keys2.map ToggleKey.value →
      pressPass beh keys1 s = pressPass beh keys2 s := by
  intro keys1
  induction keys1 with
  | nil =>
      intro keys2 s h
      cases keys2 with
      | nil => rfl
      | cons t r => simp at h
  | cons t1 rest1 ih =>
      intro keys2 s h
      cases keys2 with
      | nil => simp at h
      | cons t2 rest2 =>
          simp only [List.map_cons, List.cons.injEq] at h
          obtain ⟨hv, hrest⟩ := h
          simp only [pressPass, hv]
          rcases hcb : callBackend beh s
              (BackendCall.key (transform_key t2.value) Direction.Press) with ⟨r, s'⟩
          cases r with
          | ok u => exact ih rest2 s' hrest
          | error e => rfl

lemma releasePass_congr (beh : Behavior) :
    ∀ (keys1 keys2 : List ToggleKey) (s : EngineState),
      keys1.map ToggleKey.value = keys2.map ToggleKey.value →
      releasePass beh keys1 s = releasePass beh keys2 s := by
  intro keys1
  induction keys1 with
  | nil =>
      intro keys2 s h
      cases keys2 with
      | nil => rfl
      | cons t r => simp at h
  | cons t1 rest1 ih =>
      intro keys2 s h
      cases keys2 with
      | nil => simp at h
      | cons t2 rest2 =>
          simp only [List.map_cons, List.cons.injEq] at h
          obtain ⟨hv, hrest⟩ := h
          simp only [releasePass, hv]
          rcases hcb : callBackend beh s
              (BackendCall.key (transform_key t2.value) Direction.Release) with ⟨r, s'⟩
          cases r with
          | ok u => exact ih rest2 s' hrest
          | error e => rfl

lemma press_key_fail (beh : Behavior) (err : String) (kf : KeyboardKey)
    (hfail : beh (pressCall kf) = some err) :
    ∀ (pre : List KeyboardKey) (post : List KeyboardKey) (s : EngineState),
      (∀ k ∈ pre, beh (pressCall k) = none) →
      press_key beh (pre ++ kf :: post) s =
        (Except.error err,
         { trace := s.trace ++ pre.map pressCall ++ [pressCall kf],
           held := (pre.map transform_key).foldl heldInsert s.held }) := by
  have hfail' : beh (BackendCall.key (transform_key kf) Direction.Press) = some err :=
    hfail
  intro pre
  induction pre with
  | nil =>
      intro post s _
      simp only [List.nil_append, press_key]
      rw [callBackend_err beh s _ err hfail']
      simp [pressCall]
  | cons p pre' ih =>
      intro post s hok
      have h0 : beh (BackendCall.key (transform_key p) Direction.Press) = none :=
        hok p (List.mem_cons_self p pre')
      simp only [List.cons_append, press_key]
      rw [callBackend_ok beh s _ h0]
      simp only [List.append_eq]
      rw [ih post _ (fun k hk => hok k (List.mem_cons_of_mem p hk))]
      simp [pressCall, heldUpdate_key_press, List.append_assoc]

lemma two_pow_31 : (2 : Int) ^ 31 = 2147483648 := by norm_num

lemma two_pow_32 : (2 : Int) ^ 32 = 4294967296 := by norm_num

lemma toI32_eq_self {x : Int} (h1 : -(2 ^ 31) ≤ x) (h2 : x < 2 ^ 31) :
    toI32 x = x := by
  unfold toI32
  rw [two_pow_31, two_pow_32]
  rw [two_pow_31] at h1 h2
  omega

lemma wrapNeg32_eq_neg {x : Int} (h1 : -(2 ^ 31) < x) (h2 : x < 2 ^ 31) :
    wrapNeg32 x = -x := by
  unfold wrapNeg32
  apply toI32_eq_self
  · rw [two_pow_31] at h2 ⊢
    omega
  · rw [two_pow_31] at h1 ⊢
    omega

lemma wrapNeg32_min : wrapNeg32 (-(2 ^ 31)) = -(2 ^ 31) := by
  unfold wrapNeg32 toI32
  rw [two_pow_31, two_pow_32]
  norm_num

/-- C1: when every backend key call succeeds, `press_then_release_key`
returns Ok and issues a Press for every entry in list order followed by a
Release for every entry in list order — two full passes, never an
interleaved per-key Press/Release sequence. -/
theorem press_then_release_two_pass (beh : Behavior) (keys : List ToggleKey)
    (s : EngineState) (hbeh : ∀ k d, beh (BackendCall.key k d) = none) :
    (press_then_release_key beh keys s).1 = Except.ok () ∧
    (press_then_release_key beh keys s).2.trace =
      s.trace ++ keys.map (fun t => pressCall t.value)
              ++ keys.map (fun t => releaseCall t.value) := by
  unfold press_then_release_key
  rw [pressPass_all_ok beh hbeh keys s]
  simp only [releasePass_all_ok beh hbeh keys]
  simp [List.append_assoc]

/-- Witness for C1: on an all-succeeding backend,
`press_then_release_key [\x7bA, true\x7d, \x7bB, false\x7d]` produces the
call sequence Press(a), Press(b), Release(a), Release(b). -/
theorem press_then_release_two_pass_witness :
    (∀ k d, behOk (BackendCall.key k d) = none) ∧
    (press_then_release_key behOk
        [{ value := KeyboardKey.A, down := true },
         { value := KeyboardKey.B, down := false }] initialState).1 = Except.ok () ∧
    (press_then_release_key behOk
        [{ value := KeyboardKey.A, down := true },
         { value := KeyboardKey.B, down := false }] initialState).2.trace =
      [BackendCall.key (Key.Unicode 'a') Direction.Press,
       BackendCall.key (Key.Unicode 'b') Direction.Press,
       BackendCall.key (Key.Unicode 'a') Direction.Release,
       BackendCall.key (Key.Unicode 'b') Direction.Release] := by
  have h := press_then_release_two_pass behOk
    [{ value := KeyboardKey.A, down := true },
     { value := KeyboardKey.B, down := false }] initialState (fun k d => rfl)
  refine ⟨fun k d => rfl, h.1, ?_⟩
  rw [h.2]
  rfl

/-- C2: the boolean `down` flag of the toggle descriptors does not influence
`press_then_release_key` in any way — two argument lists equal except for
their flags produce identical results and identical backend call
sequences. -/
theorem down_flag_irrelevant (beh : Behavior) (keys1 keys2 : List ToggleKey)
    (s : EngineState)
    (h : keys1.map ToggleKey.value = keys2.map ToggleKey.value) :
    press_then_release_key beh keys1 s = press_then_release_key beh keys2 s := by
  unfold press_then_release_key
  rw [pressPass_congr beh keys1 keys2 s h]
  rcases hcb : pressPass beh keys2 s with ⟨r, s'⟩
  cases r with
  | ok u => exact releasePass_congr beh keys1 keys2 s' h
  | error e => rfl

/-- Witness for C2: flipping both down flags of a two-element descriptor
list leaves the engine behavior unchanged. -/
theorem down_flag_irrelevant_witness :
    ([{ value := KeyboardKey.A, down := true },
      { value := KeyboardKey.B, down := false }] : List ToggleKey).map ToggleKey.value =
      ([{ value := KeyboardKey.A, down := false },
        { value := KeyboardKey.B, down := true }] : List ToggleKey).map ToggleKey.value ∧
    press_then_release_key behOk
        [{ value := KeyboardKey.A, down := true },
         { value := KeyboardKey.B, down := false }] initialState =
      press_then_release_key behOk
        [{ value := KeyboardKey.A, down := false },
         { value := KeyboardKey.B, down := true }] initialState := by
  refine ⟨rfl, ?_⟩
  exact down_flag_irrelevant behOk _ _ initialState rfl

/-- C3: if the backend Press for the key at position `pre.length` fails
(every earlier Press succeeding), `press_key` returns that first error, the
trace holds exactly the Presses for the earlier keys followed by the failing
Press attempt — no later Press, no Release — and the held set still
contains every earlier key's platform code (no rollback). -/
theorem press_key_no_rollback (beh : Behavior) (pre : List KeyboardKey)
    (kf : KeyboardKey) (post : List KeyboardKey) (err : String)
    (hok : ∀ k ∈ pre, beh (pressCall k) = none)
    (hfail : beh (pressCall kf) = some err) :
    press_key beh (pre ++ kf :: post) initialState =
      (Except.error err,
       { trace := pre.map pressCall ++ [pressCall kf],
         held := (pre.map transform_key).foldl heldInsert [] }) ∧
    ∀ k ∈ pre,
      transform_key k ∈ (press_key beh (pre ++ kf :: post) initialState).2.held := by
  have h := press_key_fail beh err kf hfail pre post initialState hok
  constructor
  · simpa using h
  · intro k hk
    rw [h]
    exact mem_foldl_heldInsert (pre.map transform_key) [] (transform_key k)
      (Or.inr (List.mem_map_of_mem transform_key hk))

/-- Witness for C3: with a backend failing exactly on Press(b),
`press_key [A, B]` stops with the error "boom", issued Press(a) then the
failing Press(b) and nothing else, and the key a is still held. -/
theorem press_key_no_rollback_witness :
    (∀ k ∈ ([KeyboardKey.A] : List KeyboardKey), behFailB (pressCall k) = none) ∧
    behFailB (pressCall KeyboardKey.B) = some "boom" ∧
    press_key behFailB [KeyboardKey.A, KeyboardKey.B] initialState =
      (Except.error "boom",
       { trace := [pressCall KeyboardKey.A, pressCall KeyboardKey.B],
         held := [Key.Unicode 'a'] }) ∧
    Key.Unicode 'a' ∈ (press_key behFailB [KeyboardKey.A, KeyboardKey.B] initialState).2.held := by
  have h := press_key_no_rollback behFailB [KeyboardKey.A] KeyboardKey.B [] "boom"
    (by decide) (by decide)
  refine ⟨by decide, by decide, ?_, ?_⟩
  · have h1 := h.1
    simpa [heldInsert, transform_key] using h1
  · have h2 := h.2 KeyboardKey.A (List.mem_cons_self KeyboardKey.A [])
    simpa [transform_key] using h2

/-- C4: `set_button_click` issues exactly one backend call, a Click of the
translated button, whose raw effect is one Press immediately followed by one
Release of that button, and the held-key set observable through `held` is
unchanged (button state is never tracked there). -/
theorem set_button_click_single_press_release (beh : Behavior)
    (b : MouseButton) (s : EngineState)
    (h : beh (BackendCall.button (transform_button b) Direction.Click) = none) :
    set_button_click beh b s =
      (Except.ok (),
       { trace := s.trace ++ [BackendCall.button (transform_button b) Direction.Click],
         held := s.held }) ∧
    lowLevel (BackendCall.button (transform_button b) Direction.Click) =
      [LowEvent.buttonDown (transform_button b),
       LowEvent.buttonUp (transform_button b)] ∧
    held (set_button_click beh b s).2 = held s := by
  have h1 : set_button_click beh b s =
      (Except.ok (),
       { trace := s.trace ++ [BackendCall.button (transform_button b) Direction.Click],
         held := s.held }) := by
    unfold set_button_click
    rw [callBackend_ok beh s _ h]
    rw [heldUpdate_button]
  refine ⟨h1, rfl, ?_⟩
  rw [h1]
  rfl

/-- Witness for C4: clicking the left button on an all-succeeding backend
from the initial state. -/
theorem set_button_click_single_press_release_witness :
    behOk (BackendCall.button (transform_button MouseButton.Left) Direction.Click) = none ∧
    set_button_click behOk MouseButton.Left initialState =
      (Except.ok (),
       { trace := [BackendCall.button Button.Left Direction.Click], held := [] }) ∧
    lowLevel (BackendCall.button Button.Left Direction.Click) =
      [LowEvent.buttonDown Button.Left, LowEvent.buttonUp Button.Left] := by
  have h := set_button_click_single_press_release behOk MouseButton.Left
    initialState rfl
  exact ⟨rfl, h.1, h.2.1⟩

/-- C5 counterexample: at the minimum i32 amount, `set_mouse_scroll` Up and
Down send the very same backend value — the Up call is not the negation of
the amount, so the "equal magnitude and opposite sign" contract fails
there. -/
theorem scroll_up_min_same_sign_counterexample :
    (set_mouse_scroll behOk ScrollDirection.Up (-(2 ^ 31)) initialState).2.trace =
      (set_mouse_scroll behOk ScrollDirection.Down (-(2 ^ 31)) initialState).2.trace ∧
    (set_mouse_scroll behOk ScrollDirection.Up (-(2 ^ 31)) initialState).2.trace =
      [BackendCall.scroll (-(2 ^ 31)) Axis.Vertical] ∧
    wrapNeg32 (-(2 ^ 31)) ≠ -(-(2 ^ 31) : Int) := by
  refine ⟨?_, ?_, ?_⟩
  · rfl
  · rfl
  · rw [wrapNeg32_min]
    norm_num

/-- C5 amended: `set_mouse_scroll` issues exactly one signed scroll call on
the vertical axis; Down passes the amount through unchanged (zero and
negative amounts included, no clamping), and for every amount other than the
minimum i32 value the Up call sends exactly the negation. -/
theorem scroll_sign_flip (beh : Behavior) (clicks : Int) (s : EngineState)
    (h1 : -(2 ^ 31) ≤ clicks) (h2 : clicks < 2 ^ 31) :
    (set_mouse_scroll beh ScrollDirection.Down clicks s).2.trace =
      s.trace ++ [BackendCall.scroll clicks Axis.Vertical] ∧
    (clicks ≠ -(2 ^ 31) →
      (set_mouse_scroll beh ScrollDirection.Up clicks s).2.trace =
        s.trace ++ [BackendCall.scroll (-clicks) Axis.Vertical]) := by
  constructor
  · exact callBackend_trace beh s (BackendCall.scroll clicks Axis.Vertical)
  · intro hne
    have hlt : -(2 ^ 31) < clicks := lt_of_le_of_ne h1 (Ne.symm hne)
    have hw : wrapNeg32 clicks = -clicks := wrapNeg32_eq_neg hlt h2
    show (callBackend beh s (BackendCall.scroll (wrapNeg32 clicks) Axis.Vertical)).2.trace = _
    rw [hw]
    exact callBackend_trace beh s (BackendCall.scroll (-clicks) Axis.Vertical)

/-- Witness for C5 (amended): at amount 5, Down sends 5 and Up sends -5. -/
theorem scroll_sign_flip_witness :
    (-(2 ^ 31) : Int) ≤ 5 ∧ (5 : Int) < 2 ^ 31 ∧ (5 : Int) ≠ -(2 ^ 31) ∧
    (set_mouse_scroll behOk ScrollDirection.Down 5 initialState).2.trace =
      [BackendCall.scroll 5 Axis.Vertical] ∧
    (set_mouse_scroll behOk ScrollDirection.Up 5 initialState).2.trace =
      [BackendCall.scroll (-5) Axis.Vertical] := by
  have h := scroll_sign_flip behOk 5 initialState (by norm_num) (by norm_num)
  refine ⟨by norm_num, by norm_num, by norm_num, ?_, ?_⟩
  · simpa using h.1
  · simpa using h.2 (by norm_num)

/-- C6: the key catalog `transform_key` is total over the closed
`KeyboardKey` enumeration — every key is in the enumeration and has a
defined platform code — and deterministic: equal inputs give equal
outputs (it is a pure function of its argument). -/
theorem transform_key_total_deterministic :
    (∀ k : KeyboardKey, k ∈ allKeyboardKeys) ∧
    (∀ k : KeyboardKey, ∃ pk : Key, transform_key k = pk) ∧
    (∀ k1 k2 : KeyboardKey, k1 = k2 → transform_key k1 = transform_key k2) := by
  refine ⟨by decide, fun k => ⟨transform_key k, rfl⟩, fun k1 k2 h => by rw [h]⟩

/-- Witness for C6 at KeyboardKey.A. -/
theorem transform_key_total_deterministic_witness :
    KeyboardKey.A = KeyboardKey.A ∧
    transform_key KeyboardKey.A = transform_key KeyboardKey.A :=
  ⟨rfl, transform_key_total_deterministic.2.2 KeyboardKey.A KeyboardKey.A rfl⟩

set_option maxRecDepth 100000 in
/-- C7: for every logical key other than the approximate OEM2 placeholder,
decoding the platform code through the inverse of the catalog returns the
original key, and `transform_key` restricted to those keys is injective. -/
theorem transform_key_round_trip :
    (∀ k : KeyboardKey, k ≠ KeyboardKey.OEM2 →
      decode (transform_key k) = some k) ∧
    (∀ k1 k2 : KeyboardKey, k1 ≠ KeyboardKey.OEM2 → k2 ≠ KeyboardKey.OEM2 →
      transform_key k1 = transform_key k2 → k1 = k2) := by
  constructor <;> decide

/-- Witness for C7 at KeyboardKey.A. -/
theorem transform_key_round_trip_witness :
    KeyboardKey.A ≠ KeyboardKey.OEM2 ∧
    decode (transform_key KeyboardKey.A) = some KeyboardKey.A :=
  ⟨by decide, transform_key_round_trip.1 KeyboardKey.A (by decide)⟩

/-- C8 counterexample: when the backend cannot initialize, `new` does not
report an error value to the caller — the `.unwrap()` panics with the cause
message, a failure mode that is not a reported ConstructionError. -/
theorem new_failure_panics_counterexample :
    new (Except.error "permission denied") =
      ConstructResult.panic "permission denied" ∧
    isPanic (new (Except.error "permission denied")) = true :=
  ⟨rfl, rfl⟩

/-- C8 amended: construction either yields a working engine in the initial
state (backend initialized) or panics with the backend's cause message (the
`.unwrap()`), aborting instead of returning a reportable error value. -/
theorem new_engine_or_panic (backendInit : Except String Unit) :
    (backendInit = Except.ok () →
      new backendInit = ConstructResult.engine initialState) ∧
    (∀ e, backendInit = Except.error e →
      new backendInit = ConstructResult.panic e) := by
  constructor
  · rintro rfl
    rfl
  · rintro e rfl
    rfl

/-- Witness for C8 (amended): a successful backend initialization yields the
engine in its initial state. -/
theorem new_engine_or_panic_witness :
    (Except.ok () : Except String Unit) = Except.ok () ∧
    new (Except.ok ()) = ConstructResult.engine initialState :=
  ⟨rfl, (new_engine_or_panic (Except.ok ())).1 rfl⟩

/-- C9: `type_text` issues exactly one backend text call forwarding the
string unchanged, returns the backend's cause string verbatim on failure,
and on the empty string (which the backend accepts as a no-op per the spec
model) succeeds with no change to the held set. -/
theorem type_text_forwards (beh : Behavior) (content : String)
    (s : EngineState) :
    (type_text beh content s).2.trace = s.trace ++ [BackendCall.text content] ∧
    (∀ e, beh (BackendCall.text content) = some e →
      (type_text beh content s).1 = Except.error e) ∧
    (beh (BackendCall.text "") = none →
      type_text beh "" s =
        (Except.ok (), { trace := s.trace ++ [BackendCall.text ""], held := s.held })) := by
  refine ⟨callBackend_trace beh s (BackendCall.text content), ?_, ?_⟩
  · intro e he
    unfold type_text
    rw [callBackend_err beh s _ e he]
  · intro h0
    unfold type_text
    rw [callBackend_ok beh s _ h0]
    rfl

/-- Witness for C9: typing the empty string on an accepting backend issues
the single empty text call and succeeds with the held set unchanged. -/
theorem type_text_forwards_witness :
    behOk (BackendCall.text "") = none ∧
    type_text behOk "" initialState =
      (Except.ok (), { trace := [BackendCall.text ""], held := [] }) := by
  have h := (type_text_forwards behOk "" initialState).2.2 rfl
  exact ⟨rfl, by simpa using h⟩

/-- C10: the Up sign-flip in `set_mouse_scroll` is i32 negation: one scroll
call carrying the wrapped negation is issued, for every in-range amount
other than the minimum i32 value that is exactly the mathematical negation,
and at the minimum i32 value the wraparound sends the same value back with
the same sign. -/
theorem scroll_up_wrapping_negation (beh : Behavior) (clicks : Int)
    (s : EngineState) (h1 : -(2 ^ 31) ≤ clicks) (h2 : clicks < 2 ^ 31) :
    (set_mouse_scroll beh ScrollDirection.Up clicks s).2.trace =
      s.trace ++ [BackendCall.scroll (wrapNeg32 clicks) Axis.Vertical] ∧
    (clicks ≠ -(2 ^ 31) → wrapNeg32 clicks = -clicks) ∧
    (clicks = -(2 ^ 31) → wrapNeg32 clicks = clicks) := by
  refine ⟨?_, ?_, ?_⟩
  · exact callBackend_trace beh s (BackendCall.scroll (wrapNeg32 clicks) Axis.Vertical)
  · intro hne
    exact wrapNeg32_eq_neg (lt_of_le_of_ne h1 (Ne.symm hne)) h2
  · rintro rfl
    exact wrapNeg32_min

/-- Witness for C10 at the minimum i32 value: the wrapped negation is the
value itself. -/
theorem scroll_up_wrapping_negation_witness :
    (-(2 ^ 31) : Int) ≤ -(2 ^ 31) ∧ (-(2 ^ 31) : Int) < 2 ^ 31 ∧
    wrapNeg32 (-(2 ^ 31)) = -(2 ^ 31) := by
  refine ⟨le_refl _, by norm_num, ?_⟩
  exact (scroll_up_wrapping_negation behOk (-(2 ^ 31)) initialState
    (le_refl _) (by norm_num)).2.2 rfl

end KitEnigo
